import Mathlib

/-!
Verification of the `tag-files` CLI (tag/cli.py and the legacy src/cli.py).

The development shallowly embeds the pure content of the two `_index`
commands, the tag-set mutation closures of the `add`, `remove` and `rename`
commands, and (modelled from the spec, since `util.py` is not part of the
sources under review) the permutation engine `util.permute` and the rename
engine `util.rename_files`.

Filesystem paths are modelled as lists of path segments; `os.path.join`
becomes list append and `os.path.split(key)[0]` becomes `List.dropLast`.
Python strings are compared with the code-point lexicographic order, which
is reimplemented here (`strLe`) so that it is kernel-computable.
-/

/-! ### Python string order (code-point lexicographic) -/

/-- Lexicographic comparison of character lists by code point, as Python
compares strings. -/
def lexLe : List Char → List Char → Bool
  | [], _ => true
  | _ :: _, [] => false
  | a :: as, b :: bs =>
    if a.toNat < b.toNat then true
    else if b.toNat < a.toNat then false
    else lexLe as bs

/-- Python's `<=` on strings. -/
def strLe (s t : String) : Bool := lexLe s.data t.data

/-- `strLe` as a relation. -/
def strLeP (s t : String) : Prop := strLe s t = true

instance : DecidableRel strLeP := fun s t => instDecidableEqBool (strLe s t) true

theorem lexLe_total : ∀ as bs : List Char, lexLe as bs = true ∨ lexLe bs as = true
  | [], _ => Or.inl rfl
  | _ :: _, [] => Or.inr rfl
  | a :: as, b :: bs => by
    rcases Nat.lt_trichotomy a.toNat b.toNat with h | h | h
    · exact Or.inl (by simp [lexLe, h])
    · rcases lexLe_total as bs with ih | ih
      · refine Or.inl ?_
        simp only [lexLe]
        rw [if_neg (by omega), if_neg (by omega)]
        exact ih
      · refine Or.inr ?_
        simp only [lexLe]
        rw [if_neg (by omega), if_neg (by omega)]
        exact ih
    · exact Or.inr (by simp [lexLe, h])

theorem lexLe_trans :
    ∀ as bs cs : List Char, lexLe as bs = true → lexLe bs cs = true → lexLe as cs = true
  | [], _, _, _, _ => rfl
  | _ :: _, [], _, h1, _ => by simp [lexLe] at h1
  | _ :: _, _ :: _, [], _, h2 => by simp [lexLe] at h2
  | a :: as, b :: bs, c :: cs, h1, h2 => by
    simp only [lexLe] at h1 h2 ⊢
    by_cases hab : a.toNat < b.toNat <;> by_cases hba : b.toNat < a.toNat <;>
      by_cases hbc : b.toNat < c.toNat <;> by_cases hcb : c.toNat < b.toNat <;>
      simp only [hab, hba, hbc, hcb, if_true, if_false, if_pos, if_neg, not_false_iff] at h1 h2 ⊢ <;>
      first
      | rfl
      | omega
      | (rw [if_pos (by omega)])
      | (rw [if_neg (by omega), if_neg (by omega)]
         exact lexLe_trans as bs cs h1 h2)
      | simp_all

theorem lexLe_antisymm :
    ∀ as bs : List Char, lexLe as bs = true → lexLe bs as = true → as = bs
  | [], [], _, _ => rfl
  | [], _ :: _, _, h2 => by simp [lexLe] at h2
  | _ :: _, [], h1, _ => by simp [lexLe] at h1
  | a :: as, b :: bs, h1, h2 => by
    simp only [lexLe] at h1 h2
    by_cases hab : a.toNat < b.toNat
    · rw [if_neg (by omega), if_pos (by omega)] at h2
      exact absurd h2 (by simp)
    · by_cases hba : b.toNat < a.toNat
      · rw [if_neg (by omega), if_pos (by omega)] at h1
        exact absurd h1 (by simp)
      · have hchar : a = b := by
          have : a.toNat = b.toNat := by omega
          rw [← Char.ofNat_toNat a, ← Char.ofNat_toNat b, this]
        have hrec : as = bs :=
          lexLe_antisymm as bs
            (by rwa [if_neg hab, if_neg hba] at h1)
            (by rwa [if_neg hba, if_neg hab] at h2)
        rw [hchar, hrec]

instance : IsTotal String strLeP := ⟨fun s t => lexLe_total s.data t.data⟩

instance : IsTrans String strLeP := ⟨fun _ _ _ h1 h2 => lexLe_trans _ _ _ h1 h2⟩

instance : IsAntisymm String strLeP :=
  ⟨fun _ _ h1 h2 => String.ext (lexLe_antisymm _ _ h1 h2)⟩

/-- Python's `sorted` on a list of strings (ascending code-point
lexicographic order). -/
def sortTags (l : List String) : List String := l.insertionSort strLeP

/-! ### Permutation engine -/

/-- Modelled from the spec: `util.permute` is not under `src/`.  Per §4.2,
in flat mode (`tree = False`, the mode both `_index` commands exercise for
the claims below) the engine emits every ordering of the given tag list as
a PlacementPath, i.e. the list of all permutations of the input list. -/
def permute (tags : List String) : List (List String) := tags.permutations'

/-! ### Paths -/

/-- A filesystem path, as a list of segments. -/
abbrev FsPath := List String

/-- Render a path the way `os.path.join` does on POSIX. -/
def joinPath (p : FsPath) : String := String.intercalate "/" p

/-- `os.path.splitext` restricted to a basename: split at the last dot,
unless every character before that dot is itself a dot. -/
def splitext (s : String) : String × String :=
  let rev := s.data.reverse
  match rev.dropWhile (fun c => !(c == '.')) with
  | [] => (s, "")
  | _ :: tail =>
    if tail.reverse.all (fun c => c == '.') then (s, "")
    else (⟨tail.reverse⟩, ⟨'.' :: (rev.takeWhile (fun c => !(c == '.'))).reverse⟩)

/-! ### File records and the index builder of tag/cli.py -/

/-- A `File` record as produced by file discovery: the containing directory
(absolute, as segments), the basename of the original path (tag blocks
included), the parsed bare filename (`file['filename']`, tags stripped,
extension kept), and the contents of the parsed tag set. -/
structure TFile where
  dir : FsPath
  origName : String
  filename : String
  tags : List String
  deriving DecidableEq

/-- The original path `file['original']` of a discovered file. -/
def TFile.original (f : TFile) : FsPath := f.dir ++ [f.origName]

/-- `index[path].append(file)`, creating `index[path] = []` first when the
key is absent, on an insertion-ordered association list (a Python dict). -/
def indexInsert : List (FsPath × List TFile) → FsPath → TFile → List (FsPath × List TFile)
  | [], k, f => [(k, [f])]
  | (k', fs) :: rest, k, f =>
    if k' = k then (k', fs ++ [f]) :: rest else (k', fs) :: indexInsert rest k f

/-- Dictionary lookup with default `[]`. -/
def lookupIdx : List (FsPath × List TFile) → FsPath → List TFile
  | [], _ => []
  | (k', fs) :: rest, k => if k' = k then fs else lookupIdx rest k

/-- The candidate key `os.path.join(output, *perm, filename)` where
`filename = os.path.split(file['original'])[1]` (tag/cli.py line 203-204). -/
def fileKey (output : FsPath) (perm : List String) (f : TFile) : FsPath :=
  output ++ perm ++ [f.origName]

/-- One iteration of the outer loop of `_index` (tag/cli.py lines 201-207):
insert the file under the key of every permutation of its sorted tag set. -/
def indexStep (output : FsPath) (idx : List (FsPath × List TFile)) (f : TFile) :
    List (FsPath × List TFile) :=
  (permute (sortTags f.tags)).foldl (fun i p => indexInsert i (fileKey output p f) f) idx

/-- The `index` mapping built by tag/cli.py lines 200-207. -/
def buildIndex (output : FsPath) (files : List TFile) : List (FsPath × List TFile) :=
  files.foldl (indexStep output) []

/-- `file['dir'][len(abspath)+1:]` (tag/cli.py line 226): the directory of
the file relative to the search root. -/
def relDir (abspath : FsPath) (f : TFile) : FsPath := f.dir.drop abspath.length

/-- The disambiguated link name of tag/cli.py lines 226-232: when the file's
directory is not the search root itself, join the relative directory
segments with `-` and insert the identifier before the extension. -/
def disambName (abspath : FsPath) (f : TFile) : String :=
  let rel := relDir abspath f
  if rel.isEmpty then f.filename
  else
    let i := String.intercalate "-" rel
    let pe := splitext f.filename
    pe.1 ++ "-" ++ i ++ pe.2

/-- The `(destination, source)` link pairs planned for one key of the index
(tag/cli.py lines 216-238): a single occupant keeps its plain bare filename,
multiple occupants get disambiguated names. -/
def linkPairs (abspath parent : FsPath) : List TFile → List (FsPath × FsPath)
  | [f] => [(parent ++ [f.filename], f.original)]
  | fs => fs.map (fun f => (parent ++ [disambName abspath f], f.original))

/-- A filesystem mutation performed by `_index`. -/
inductive FsAction where
  | makedirs (p : FsPath)
  | symlink (src dst : FsPath)
  deriving DecidableEq

/-- The body of the reporting/linking loop of tag/cli.py lines 210-238 for
one key: `parent = os.path.split(key)[0]`, `os.makedirs(parent)` and one
`os.symlink(src, dst)` per planned pair unless `--debug` is set. -/
def processKey (debug : Bool) (abspath key : FsPath) (fs : List TFile) :
    List FsAction × List (FsPath × FsPath) :=
  let parent := key.dropLast
  let pairs := linkPairs abspath parent fs
  let actions :=
    if debug then []
    else FsAction.makedirs parent :: pairs.map (fun pr => FsAction.symlink pr.2 pr.1)
  (actions, pairs)

/-- Ordering of index entries by their key, rendered as Python renders and
compares the key strings (`sorted(index.keys())`, tag/cli.py line 210). -/
def entryLe (a b : FsPath × List TFile) : Prop := strLeP (joinPath a.1) (joinPath b.1)

instance : DecidableRel entryLe :=
  fun a b => instDecidableEqBool (strLe (joinPath a.1) (joinPath b.1)) true

instance : IsTotal (FsPath × List TFile) entryLe :=
  ⟨fun a b => lexLe_total (joinPath a.1).data (joinPath b.1).data⟩

instance : IsTrans (FsPath × List TFile) entryLe :=
  ⟨fun _ _ _ h1 h2 => lexLe_trans _ _ _ h1 h2⟩

/-- The index mapping with its entries in ascending sorted key order. -/
def sortedIndex (output : FsPath) (files : List TFile) : List (FsPath × List TFile) :=
  (buildIndex output files).insertionSort entryLe

/-- All filesystem actions performed by the loop of tag/cli.py lines 210-238. -/
def tagIndexActions (output abspath : FsPath) (files : List TFile) (debug : Bool) :
    List FsAction :=
  ((sortedIndex output files).map (fun e => (processKey debug abspath e.1 e.2).1)).flatten

/-- All `(destination, source)` pairs the loop plans (and reports when
`--verbose` is set), in ascending key order. -/
def tagIndexPairs (output abspath : FsPath) (files : List TFile) (debug : Bool) :
    List (FsPath × FsPath) :=
  ((sortedIndex output files).map (fun e => (processKey debug abspath e.1 e.2).2)).flatten

/-- The final `count` printed by tag/cli.py lines 209-242: the sum of the
occupant counts over all keys. -/
def tagIndexCount (output : FsPath) (files : List TFile) : Nat :=
  ((sortedIndex output files).map (fun e => e.2.length)).sum

/-- The error raised by tag/cli.py lines 189-192 (the spec's
`DestinationConflict`). -/
inductive IndexError where
  | destinationConflict
  deriving DecidableEq

/-- The observable outcome of an `_index` run: the filesystem actions, the
planned/reported link pairs and the final count. -/
structure IndexResult where
  actions : List FsAction
  pairs : List (FsPath × FsPath)
  count : Nat
  deriving DecidableEq

/-- The `_index` command of tag/cli.py: fail with `DestinationConflict`
when the output directory exists and has entries (`os.path.exists(output)
and os.listdir(output)`, lines 189-192), otherwise build the index and run
the reporting/linking loop. -/
def tagIndex (outputExists : Bool) (outputEntries : List String) (output abspath : FsPath)
    (files : List TFile) (debug : Bool) : Except IndexError IndexResult :=
  if outputExists && !outputEntries.isEmpty then
    .error .destinationConflict
  else
    .ok ⟨tagIndexActions output abspath files debug,
         tagIndexPairs output abspath files debug,
         tagIndexCount output files⟩

/-! ### The legacy `_index` of src/cli.py -/

/-- The `_index` command of the legacy src/cli.py (lines 167-229): it builds
and reports the same index but contains no output-directory guard, no
`os.makedirs` and no `os.symlink` call; its only effect is console output.
The `outputExists`, `outputEntries` and `debug` parameters are accepted for
signature parity with `tagIndex` and are not inspected (the code never
looks at the output directory, and `--debug` only changes the wording of
the final message). -/
def srcIndex (outputExists : Bool) (outputEntries : List String) (output abspath : FsPath)
    (files : List TFile) (debug : Bool) : Except IndexError IndexResult :=
  .ok ⟨[],
       ((sortedIndex output files).map (fun e => linkPairs abspath e.1.dropLast e.2)).flatten,
       tagIndexCount output files⟩

/-! ### Tag-set mutation closures (tag/cli.py) and the rename engine -/

/-- The closure of the `add` command (tag/cli.py line 98):
`tag_set.update(tag_list)`, i.e. set union with the supplied list. -/
def addUpdate (t : Finset String) (l : List String) : Finset String := t ∪ l.toFinset

/-- The closure of the `remove` command (tag/cli.py line 165):
`tag_set.difference_update(tag_list)`, i.e. set difference with the
supplied list. -/
def removeUpdate (t : Finset String) (l : List String) : Finset String := t \ l.toFinset

/-- A file as seen by the rename engine: its current basename, the parsed
base, extension and tag-set contents (in the order the name lists them). -/
structure MFile where
  origName : String
  base : String
  ext : String
  tags : List String
  deriving DecidableEq

/-- One `\x7btag\x7d` block per tag, in the order given. -/
def tagBlocks (tags : List String) : String :=
  String.join (tags.map (fun t => "\x7b" ++ t ++ "\x7d"))

/-- Serialization of a file name from its parsed parts (§4.1). -/
def serializeName (base : String) (tags : List String) (ext : String) : String :=
  base ++ tagBlocks tags ++ ext

/-- A rename performed by the mutation engine. -/
inductive RenameAction where
  | rename (old new : String)
  deriving DecidableEq

/-- Python `set.add`: append the element unless already present. -/
def setAdd (t : List String) (x : String) : List String :=
  if x ∈ t then t else t ++ [x]

/-- The `tag_handler` closure of the `rename` command (tag/cli.py lines
296-299): if the old tag is present, remove it and add the new tag;
otherwise do nothing. -/
def renameMutation (o n : String) (t : List String) : List String :=
  if o ∈ t then setAdd (t.erase o) n else t

/-- Modelled from the spec: `util.rename_files` is not under `src/`.  Per
§4.4 it applies the mutation closure to the parsed tag set and re-serializes
the name; the `sort` command relies on serialization alone re-ordering the
tags into ascending order, so the engine serializes the mutated set in
sorted order.  Per §6 the old→new path is printed (and, per §4.4, the
rename performed unless `--debug`) only when the name changes.  Returns the
renames performed and the verbose output lines for one file. -/
def renameStep (verbose debug : Bool) (f : MFile) (mutate : List String → List String) :
    List RenameAction × List String :=
  let newTags := mutate f.tags
  let newName := serializeName f.base (sortTags newTags) f.ext
  if newName ≠ f.origName then
    ((if debug then [] else [RenameAction.rename f.origName newName]),
     (if verbose then [f.origName ++ " -> " ++ newName] else []))
  else ([], [])

/-! ### Concrete discovered files used as test inputs -/

/-- `R/x{foo}.txt`: a tagged file sitting directly in the search root. -/
def xAtRoot : TFile := ⟨["R"], "x\x7bfoo\x7d.txt", "x.txt", ["foo"]⟩

/-- `R/a/x{foo}.txt`. -/
def xInA : TFile := ⟨["R", "a"], "x\x7bfoo\x7d.txt", "x.txt", ["foo"]⟩

/-- `R/b/x{foo}.txt`. -/
def xInB : TFile := ⟨["R", "b"], "x\x7bfoo\x7d.txt", "x.txt", ["foo"]⟩

/-- `x{b}{a}.txt`: a file whose name lists its tags out of sorted order. -/
def unsortedNameFile : MFile := ⟨"x\x7bb\x7d\x7ba\x7d.txt", "x", ".txt", ["b", "a"]⟩

/-- `x{a}{b}.txt`: a file whose name is already in canonical sorted form. -/
def canonicalNameFile : MFile := ⟨"x\x7ba\x7d\x7bb\x7d.txt", "x", ".txt", ["a", "b"]⟩

/-! ### Lemmas about the index dictionary -/

theorem lookupIdx_indexInsert_self (idx : List (FsPath × List TFile)) (k : FsPath) (f : TFile) :
    lookupIdx (indexInsert idx k f) k = lookupIdx idx k ++ [f] := by
  induction idx with
  | nil => simp [indexInsert, lookupIdx]
  | cons e rest ih =>
    obtain ⟨k', fs⟩ := e
    by_cases h : k' = k
    · simp [indexInsert, lookupIdx, h]
    · simp [indexInsert, lookupIdx, h, ih]

theorem lookupIdx_indexInsert_ne (idx : List (FsPath × List TFile)) (k k₂ : FsPath) (f : TFile)
    (h : k ≠ k₂) : lookupIdx (indexInsert idx k₂ f) k = lookupIdx idx k := by
  induction idx with
  | nil => simp [indexInsert, lookupIdx, Ne.symm h]
  | cons e rest ih =>
    obtain ⟨k', fs⟩ := e
    by_cases h2 : k' = k₂
    · subst h2
      simp [indexInsert, lookupIdx, Ne.symm h]
    · simp [indexInsert, lookupIdx, h2, ih]

theorem mem_lookupIdx_indexInsert (idx : List (FsPath × List TFile)) (k k₂ : FsPath)
    (f g : TFile) (h : f ∈ lookupIdx idx k) : f ∈ lookupIdx (indexInsert idx k₂ g) k := by
  by_cases hk : k = k₂
  · subst hk
    rw [lookupIdx_indexInsert_self]
    exact List.mem_append_left _ h
  · rwa [lookupIdx_indexInsert_ne idx k k₂ g hk]

theorem mem_lookupIdx_foldl_insert (perms : List (List String)) (key : List String → FsPath)
    (g f : TFile) (idx : List (FsPath × List TFile)) (k : FsPath) (h : f ∈ lookupIdx idx k) :
    f ∈ lookupIdx (perms.foldl (fun i p => indexInsert i (key p) g) idx) k := by
  induction perms generalizing idx with
  | nil => exact h
  | cons p ps ih => exact ih _ (mem_lookupIdx_indexInsert idx k (key p) f g h)

theorem mem_lookupIdx_foldl_insert_self (perms : List (List String))
    (key : List String → FsPath) (g : TFile) (p : List String) (hp : p ∈ perms)
    (idx : List (FsPath × List TFile)) :
    g ∈ lookupIdx (perms.foldl (fun i q => indexInsert i (key q) g) idx) (key p) := by
  induction perms generalizing idx with
  | nil => cases hp
  | cons q qs ih =>
    rcases List.mem_cons.mp hp with rfl | hmem
    · refine mem_lookupIdx_foldl_insert qs key g g _ (key p) ?_
      rw [lookupIdx_indexInsert_self]
      exact List.mem_append_right _ (List.mem_singleton_self _)
    · exact ih hmem _

theorem mem_lookupIdx_foldl_indexStep (files : List TFile) (output : FsPath)
    (idx : List (FsPath × List TFile)) (k : FsPath) (f : TFile) (h : f ∈ lookupIdx idx k) :
    f ∈ lookupIdx (files.foldl (indexStep output) idx) k := by
  induction files generalizing idx with
  | nil => exact h
  | cons g gs ih =>
    exact ih _ (mem_lookupIdx_foldl_insert _ _ g f idx k h)

theorem length_linkPairs (abspath parent : FsPath) :
    ∀ fs : List TFile, (linkPairs abspath parent fs).length = fs.length
  | [] => rfl
  | [_] => rfl
  | _ :: _ :: _ => by simp [linkPairs]

theorem linkPairs_cons_cons (abspath parent : FsPath) (a b : TFile) (rest : List TFile) :
    linkPairs abspath parent (a :: b :: rest) =
      (a :: b :: rest).map (fun f => (parent ++ [disambName abspath f], f.original)) := rfl

theorem processKey_snd (debug : Bool) (abspath key : FsPath) (fs : List TFile) :
    (processKey debug abspath key fs).2 = linkPairs abspath key.dropLast fs := rfl

theorem processKey_fst_debug (abspath key : FsPath) (fs : List TFile) :
    (processKey true abspath key fs).1 = [] := rfl

/-! ### Claims -/

/-- Claim C1, counterexample: the candidate key does not use the bare
filename (tags stripped).  For the single file `R/x{foo}.txt` (bare name
`x.txt`, tag set `{foo}`) the index has no entry at `OUT/foo/x.txt` — the
key the claim prescribes — and instead files the record under
`OUT/foo/x{foo}.txt`, the basename of the original path with the tag block
still present. -/
theorem index_key_not_bare_filename :
    lookupIdx (buildIndex ["OUT"] [xAtRoot]) ["OUT", "foo", "x.txt"] = [] ∧
      lookupIdx (buildIndex ["OUT"] [xAtRoot]) ["OUT", "foo", "x\x7bfoo\x7d.txt"] = [xAtRoot] := by
  decide

/-- Claim C1 (amended): for every File and every PlacementPath produced by
the Permutation Engine over its sorted TagSet, the index command computes
the candidate key as the output root joined with the PlacementPath segments
joined with the basename of the File's original path (tag blocks included,
not stripped), and appends the File to the mapping entry for that key. -/
theorem index_key_appends_file (output : FsPath) (files : List TFile) (f : TFile)
    (hf : f ∈ files) (p : List String) (hp : p ∈ permute (sortTags f.tags)) :
    f ∈ lookupIdx (buildIndex output files) (fileKey output p f) := by
  unfold buildIndex
  suffices haux : ∀ (fs : List TFile) (idx : List (FsPath × List TFile)), f ∈ fs →
      f ∈ lookupIdx (fs.foldl (indexStep output) idx) (fileKey output p f) from
    haux files [] hf
  intro fs
  induction fs with
  | nil => intro idx h; cases h
  | cons g gs ih =>
    intro idx h
    rcases List.mem_cons.mp h with rfl | hmem
    · refine mem_lookupIdx_foldl_indexStep gs output _ _ _ ?_
      exact mem_lookupIdx_foldl_insert_self (permute (sortTags f.tags))
        (fun q => fileKey output q f) f p hp idx
    · exact ih _ hmem

theorem index_key_appends_file_witness :
    xAtRoot ∈ [xAtRoot] ∧ ["foo"] ∈ permute (sortTags xAtRoot.tags) ∧
      xAtRoot ∈ lookupIdx (buildIndex ["OUT"] [xAtRoot]) (fileKey ["OUT"] ["foo"] xAtRoot) :=
  ⟨by decide, by decide,
    index_key_appends_file ["OUT"] [xAtRoot] xAtRoot (by decide) ["foo"] (by decide)⟩

/-- Claim C2: whenever the OUTPUT directory already exists and contains at
least one entry, the index command of tag/cli.py fails with the
`DestinationConflict` error; the error is raised before the index is built
or any loop iteration runs, so the outcome carries no filesystem action and
no link is created. -/
theorem index_nonempty_output_conflict (e : String) (es : List String)
    (output abspath : FsPath) (files : List TFile) (debug : Bool) :
    tagIndex true (e :: es) output abspath files debug = .error .destinationConflict := by
  simp [tagIndex]

/-- Claim C3: a key claimed by exactly one File links under the File's
plain bare filename; in a key claimed by several Files each occupant links
under its name with the hyphen-joined relative directory segments inserted
before the extension, an occupant whose directory is the search root itself
keeping its plain name; concretely, indexing `a/x{foo}.txt` and
`b/x{foo}.txt` under root `R` plans exactly the two links
`OUTPUT/foo/x-a.txt` and `OUTPUT/foo/x-b.txt`. -/
theorem index_collision_disambiguation :
    (∀ (abspath parent : FsPath) (f : TFile),
        linkPairs abspath parent [f] = [(parent ++ [f.filename], f.original)]) ∧
    (∀ (abspath parent : FsPath) (fs : List TFile) (f : TFile),
        2 ≤ fs.length → f ∈ fs → relDir abspath f = [] →
          (parent ++ [f.filename], f.original) ∈ linkPairs abspath parent fs) ∧
    tagIndexPairs ["OUTPUT"] ["R"] [xInA, xInB] false =
      [(["OUTPUT", "foo", "x-a.txt"], ["R", "a", "x\x7bfoo\x7d.txt"]),
       (["OUTPUT", "foo", "x-b.txt"], ["R", "b", "x\x7bfoo\x7d.txt"])] := by
  refine ⟨fun abspath parent f => rfl, ?_, by decide⟩
  intro abspath parent fs f hlen hmem hrel
  rcases fs with _ | ⟨a, _ | ⟨b, rest⟩⟩
  · cases hmem
  · simp at hlen
  · rw [linkPairs_cons_cons]
    have hname : disambName abspath f = f.filename := by
      simp [disambName, hrel]
    exact List.mem_map.mpr ⟨f, hmem, by rw [hname]⟩

theorem index_collision_disambiguation_witness :
    2 ≤ ([xAtRoot, xInA] : List TFile).length ∧ xAtRoot ∈ [xAtRoot, xInA] ∧
      relDir ["R"] xAtRoot = [] ∧
      ((["OUTPUT", "foo"] ++ [xAtRoot.filename], xAtRoot.original) ∈
        linkPairs ["R"] ["OUTPUT", "foo"] [xAtRoot, xInA]) :=
  ⟨by decide, by decide, by decide,
    index_collision_disambiguation.2.1 ["R"] ["OUTPUT", "foo"] [xAtRoot, xInA] xAtRoot
      (by decide) (by decide) (by decide)⟩

/-- Claim C4 (spec-modelled): for every TagSet with `N ≥ 1` distinct tags,
the Permutation Engine in flat mode returns exactly `N!` PlacementPaths,
with no duplicates, each a permutation of the sorted tag list. -/
theorem permute_flat_factorial (T : List String) (N : ℕ) (hnd : T.Nodup)
    (hlen : T.length = N) (hN : 1 ≤ N) :
    (permute (sortTags T)).length = N.factorial ∧ (permute (sortTags T)).Nodup ∧
      ∀ p ∈ permute (sortTags T), p.Perm (sortTags T) := by
  have hperm : (sortTags T).Perm T := List.perm_insertionSort strLeP T
  have hpp : (sortTags T).permutations.Perm (sortTags T).permutations' :=
    List.permutations_perm_permutations' (sortTags T)
  refine ⟨?_, ?_, fun p hp => List.mem_permutations'.mp hp⟩
  · calc (permute (sortTags T)).length
        = (sortTags T).permutations.length := hpp.length_eq.symm
      _ = (sortTags T).length.factorial := List.length_permutations _
      _ = T.length.factorial := by rw [hperm.length_eq]
      _ = N.factorial := by rw [hlen]
  · have hnd2 : (sortTags T).Nodup := hperm.nodup_iff.mpr hnd
    exact hpp.nodup_iff.mp (List.nodup_permutations _ hnd2)

theorem permute_flat_factorial_witness :
    (["b", "a"] : List String).Nodup ∧ (["b", "a"] : List String).length = 2 ∧ 1 ≤ 2 ∧
      ((permute (sortTags ["b", "a"])).length = Nat.factorial 2 ∧
        (permute (sortTags ["b", "a"])).Nodup ∧
        ∀ p ∈ permute (sortTags ["b", "a"]), p.Perm (sortTags ["b", "a"])) :=
  ⟨by decide, by decide, by decide,
    permute_flat_factorial ["b", "a"] 2 (by decide) (by decide) (by decide)⟩

/-- Claim C5 (spec-modelled): the Permutation Engine is deterministic — two
runs over TagSets with equal content (modelled as two enumeration orders of
the same set, i.e. lists that are permutations of each other) produce
identical PlacementPath lists, in content and order, because the engine
sorts the tags ascending before permuting. -/
theorem permute_deterministic (l₁ l₂ : List String) (h : l₁.Perm l₂) :
    permute (sortTags l₁) = permute (sortTags l₂) := by
  have hs : sortTags l₁ = sortTags l₂ :=
    List.eq_of_perm_of_sorted
      (((List.perm_insertionSort strLeP l₁).trans h).trans
        (List.perm_insertionSort strLeP l₂).symm)
      (List.sorted_insertionSort strLeP l₁) (List.sorted_insertionSort strLeP l₂)
  exact congrArg permute hs

theorem permute_deterministic_witness :
    (["b", "a"] : List String).Perm ["a", "b"] ∧
      permute (sortTags ["b", "a"]) = permute (sortTags ["a", "b"]) :=
  ⟨by decide, permute_deterministic ["b", "a"] ["a", "b"] (by decide)⟩

/-- Claim C6, counterexample: `add` then `remove` of the same tag list does
not restore the original tag set when the list overlaps it — with original
set `{a}` and tag list `[a]` the composition yields `∅`, not `{a}`. -/
theorem add_remove_not_inverse :
    removeUpdate (addUpdate {"a"} ["a"]) ["a"] ≠ ({"a"} : Finset String) := by decide

/-- Claim C6 (amended): `add L` followed by `remove L` yields the original
tag set minus `L`; it restores the original tag set exactly on files whose
original tag set is disjoint from `L`. -/
theorem add_remove_restores (t : Finset String) (l : List String) :
    removeUpdate (addUpdate t l) l = t \ l.toFinset ∧
      (Disjoint t l.toFinset → removeUpdate (addUpdate t l) l = t) := by
  have h1 : removeUpdate (addUpdate t l) l = t \ l.toFinset := by
    simp only [addUpdate, removeUpdate, Finset.union_sdiff_right]
  exact ⟨h1, fun hd => by rw [h1, Finset.sdiff_eq_self_iff_disjoint.mpr hd]⟩

theorem add_remove_restores_witness :
    Disjoint ({"a"} : Finset String) (["b"] : List String).toFinset ∧
      removeUpdate (addUpdate {"a"} ["b"]) ["b"] = {"a"} :=
  ⟨by decide, (add_remove_restores {"a"} ["b"]).2 (by decide)⟩

/-- Claim C7: the reporting loop of the index command visits the index
entries in ascending sorted key order (keys compared as Python compares the
joined path strings), emitting the planned or executed
`(destinationPath, sourcePath)` pair of every link, and the final count it
prints equals the number of emitted pairs. -/
theorem index_report_sorted_count (output abspath : FsPath) (files : List TFile)
    (debug : Bool) :
    ((sortedIndex output files).map Prod.fst).Pairwise
        (fun k k' => strLeP (joinPath k) (joinPath k')) ∧
      tagIndexCount output files = (tagIndexPairs output abspath files debug).length := by
  constructor
  · have hs : List.Sorted entryLe (sortedIndex output files) :=
      List.sorted_insertionSort entryLe (buildIndex output files)
    exact List.pairwise_map.mpr hs
  · simp [tagIndexCount, tagIndexPairs, List.length_flatten, List.map_map,
      Function.comp_def, processKey_snd, length_linkPairs]

/-- Claim C8: with the `--debug` flag set, the index command performs no
filesystem mutation — no `os.makedirs` and no `os.symlink` — while the full
set of planned links, and the final count, are computed exactly as without
the flag. -/
theorem index_debug_no_mutation (output abspath : FsPath) (files : List TFile) :
    tagIndexActions output abspath files true = [] ∧
      tagIndexPairs output abspath files true = tagIndexPairs output abspath files false ∧
      tagIndex false [] output abspath files true =
        .ok ⟨[], tagIndexPairs output abspath files false, tagIndexCount output files⟩ := by
  have ha : tagIndexActions output abspath files true = [] := by
    simp [tagIndexActions, processKey_fst_debug, List.flatten_eq_nil_iff]
  have hp : tagIndexPairs output abspath files true = tagIndexPairs output abspath files false :=
    rfl
  refine ⟨ha, hp, ?_⟩
  simp [tagIndex, ha, hp]

/-- Claim C9, counterexample (spec-modelled): on a file whose name lists
its tags out of sorted order (`x{b}{a}.txt`), `rename c d` with `c` absent
from the tag set still acts: re-serialization sorts the tags, the name
changes to `x{a}{b}.txt`, a rename is performed and verbose output is
emitted — the file is not left unchanged. -/
theorem rename_missing_tag_not_noop :
    "c" ∉ unsortedNameFile.tags ∧
      renameStep true false unsortedNameFile (renameMutation "c" "d") ≠ ([], []) := by
  decide

/-- Claim C9 (amended): `rename old new` on a file lacking `old` never
changes the tag set; when moreover the file's name is canonical (its tag
blocks already serialized in ascending sorted order) the file is left fully
unchanged: no rename is performed and the verbose output is empty. -/
theorem rename_missing_tag_canonical_noop (o n : String) (f : MFile)
    (verbose debug : Bool) (ho : o ∉ f.tags)
    (hc : f.origName = serializeName f.base (sortTags f.tags) f.ext) :
    renameMutation o n f.tags = f.tags ∧
      renameStep verbose debug f (renameMutation o n) = ([], []) := by
  have hm : renameMutation o n f.tags = f.tags := if_neg ho
  refine ⟨hm, ?_⟩
  simp [renameStep, hm, ← hc]

theorem rename_missing_tag_canonical_noop_witness :
    "c" ∉ canonicalNameFile.tags ∧
      canonicalNameFile.origName =
        serializeName canonicalNameFile.base (sortTags canonicalNameFile.tags)
          canonicalNameFile.ext ∧
      (renameMutation "c" "d" canonicalNameFile.tags = canonicalNameFile.tags ∧
        renameStep true false canonicalNameFile (renameMutation "c" "d") = ([], [])) :=
  ⟨by decide, by decide,
    rename_missing_tag_canonical_noop "c" "d" canonicalNameFile true false
      (by decide) (by decide)⟩

/-- Claim C10: the `_index` command of the legacy src/cli.py performs no
filesystem mutation for any input — its action list is empty whatever the
`--debug` flag — and it never rejects a pre-existing non-empty OUTPUT: the
outcome is the same successful result regardless of the output-directory
state and of the debug flag, consisting only of the reported pairs and
count. -/
theorem src_index_no_mutation (outputExists : Bool) (outputEntries : List String)
    (output abspath : FsPath) (files : List TFile) (debug : Bool) :
    srcIndex outputExists outputEntries output abspath files debug =
      .ok ⟨[],
        ((sortedIndex output files).map (fun e => linkPairs abspath e.1.dropLast e.2)).flatten,
        tagIndexCount output files⟩ ∧
      srcIndex outputExists outputEntries output abspath files debug =
        srcIndex false [] output abspath files false :=
  ⟨rfl, rfl⟩
